import Mathlib

/-!
Verification of the index-bijection builder, state reprojector, bounds validator,
path segmenter and goal-candidate sampler of the `prl_hpp_tsid` repository
(`prl_pinocchio/robot.py` and `prl_hpp/planner.py`), as a shallow embedding in Lean.

Machine reals are embedded as `ℚ`; Python exceptions are embedded as `Except String`;
calls into the external planner are embedded as oracle records.
-/

/-- One joint of a pinocchio model: its number of configuration scalars (`nq`)
and velocity scalars (`nv`), as read off `joint.nq` / `joint.nv`. -/
structure PinJoint where
  nq : Nat
  nv : Nat
deriving DecidableEq

/-- The part of a pinocchio model that `Robot.create_dof_lookup` consults:
the vector `model.joints` and the name vector `model.names`. -/
structure PinModel where
  joints : List PinJoint
  names : List String
deriving DecidableEq

deriving instance DecidableEq for Except

/-- `Robot.get_joint_names` (robot.py line 160): `model.names[1:]`, dropping the
leading `universe` entry of the pinocchio name vector. -/
def get_joint_names (m : PinModel) : List String :=
  m.names.drop 1

/-- The dof-block enumeration of `create_dof_lookup` (robot.py lines 201-208):
walking the joint list, each joint receives the block of the next `count`
consecutive indices, where `count` is that joint's scalar count. -/
def dofBlocks : Nat → List Nat → List (List Nat)
  | _, [] => []
  | idx, c :: rest => ((List.range c).map (fun k => idx + k)) :: dofBlocks (idx + c) rest

/-- Python `list.index` on a list of names: the first position holding the value,
a `ValueError` if the value is absent. -/
def pyNameIndex (l : List String) (x : String) : Except String Nat :=
  match List.findIdx? (fun s => s == x) l with
  | some i => Except.ok i
  | none => Except.error "ValueError"

/-- Python `list.index` on a list of naturals. -/
def pyNatIndex (l : List Nat) (x : Nat) : Except String Nat :=
  match List.findIdx? (fun s => s == x) l with
  | some i => Except.ok i
  | none => Except.error "ValueError"

/-- Python subscript `l[i]` on a list of dof blocks: an `IndexError` out of range. -/
def pyBlockGet (l : List (List Nat)) (i : Nat) : Except String (List Nat) :=
  match l.get? i with
  | some b => Except.ok b
  | none => Except.error "IndexError"

/-- The inversion loop of `create_dof_lookup` (robot.py lines 219-222):
`res[pin_index] = flat.index(pin_index)` for every `pin_index < len(flat)`. -/
def invertTable (flat : List Nat) : Except String (List Nat) :=
  (List.range flat.length).mapM (fun p => pyNatIndex flat p)

/-- One half of `create_dof_lookup` (robot.py lines 200-222, repeated verbatim in the
source for the velocity counts at lines 225-247): enumerate the dof blocks of
`pin_model.joints` under the given per-joint scalar counts, fetch, for every name of
`new_joint_list`, the block at `pin_joint_names.index(name)`, flatten the fetched
blocks into `res_new_to_pin`, and invert that flat table into `res_pin_to_new`.
Returns `(res_pin_to_new, res_new_to_pin)`. -/
def lookupHalf (m : PinModel) (counts : List Nat) (new_joint_list : List String) :
    Except String (List Nat × List Nat) := do
  let blocks := dofBlocks 0 counts
  let grouped ← new_joint_list.mapM (fun name => do
    let pin_index ← pyNameIndex (get_joint_names m) name
    pyBlockGet blocks pin_index)
  let res_new_to_pin := grouped.flatten
  let res_pin_to_new ← invertTable res_new_to_pin
  pure (res_pin_to_new, res_new_to_pin)

/-- `Robot.create_dof_lookup` (robot.py lines 196-249): builds the four lookup
tables `(q_pin_to_new, q_new_to_pin, v_pin_to_new, v_new_to_pin)`, running the
same block-enumeration/rearrange/flatten/invert code once with the `nq` counts
and once with the `nv` counts of `pin_model.joints`. -/
def create_dof_lookup (m : PinModel) (new_joint_list : List String) :
    Except String (List Nat × List Nat × List Nat × List Nat) := do
  let q ← lookupHalf m (m.joints.map PinJoint.nq) new_joint_list
  let v ← lookupHalf m (m.joints.map PinJoint.nv) new_joint_list
  pure (q.1, q.2, v.1, v.2)

/-- Pinocchio model of a robot whose real joints are given as
`(name, nq, nv)` triples. Pinocchio exposes `model.names` with the entry
`universe` at position 0 followed by the real joint names, and exposes
`model.joints` as a vector of the same length whose entry 0 is a
placeholder for the universe joint: a default-constructed joint model,
which reports one configuration scalar and one velocity scalar
(the first, revolute, alternative of the joint-model variant), followed by
the real joints. `robot.py` iterates `pin_model.joints` in full (line 203)
while indexing blocks by positions in `model.names[1:]` (lines 198, 212). -/
def buildModelFromLayout (layout : List (String × Nat × Nat)) : PinModel :=
  { joints := ⟨1, 1⟩ :: layout.map (fun x => ⟨x.2.1, x.2.2⟩),
    names := "universe" :: layout.map (fun x => x.1) }

/-- Total number of configuration scalars contributed by the real joints of a
layout: the dimension `N` of the configuration space. -/
def totalConfigScalars (layout : List (String × Nat × Nat)) : Nat :=
  (layout.map (fun x => x.2.1)).sum

/-- Python subscript `l[i]` on a vector of scalars: an `IndexError` out of range. -/
def pyGetQ (l : List ℚ) (i : Nat) : Except String ℚ :=
  match l.get? i with
  | some x => Except.ok x
  | none => Except.error "IndexError"

/-- One comprehension of `Robot._rearrange_ros_to_pin` (robot.py lines 251-268):
`[x[table[i]] for i in range(len(x))]`, reading, for every target position,
the source coordinate named by the lookup table. -/
def rearrange_one (table : List Nat) (x : List ℚ) : Except String (List ℚ) :=
  (List.range x.length).mapM (fun i => do
    let t ← match table.get? i with
      | some t => Except.ok t
      | none => Except.error "IndexError"
    pyGetQ x t)

/-- Exact subtraction of rationals, written out on numerators and denominators
so that concrete terms stay kernel-computable; it equals the library
subtraction (`qSub_eq_sub` below). -/
def qSub (a b : ℚ) : ℚ :=
  mkRat (a.num * b.den - b.num * a.den) (a.den * b.den)

/-- Exact absolute value of a rational, kernel-computable; it equals the
library absolute value (`qAbs_eq_abs` below). -/
def qAbs (a : ℚ) : ℚ :=
  if 0 ≤ a then a else Rat.neg a

/-- Python `max` of two scalars, kernel-computable. -/
def qMax (a b : ℚ) : ℚ :=
  if a ≤ b then b else a

/-- Python `min` of two scalars, kernel-computable. -/
def qMin (a b : ℚ) : ℚ :=
  if a ≤ b then a else b

/-- The clamp applied per scalar by `Robot.get_meas_qvtau` (robot.py lines 109-110):
`pos = max(pos, lower[i]); pos = min(pos, upper[i])`. -/
def clampVal (lo hi x : ℚ) : ℚ :=
  qMin (qMax x lo) hi

/-- The bounds-validation loop of `Robot.get_meas_qvtau` (robot.py lines 108-112):
for every position scalar, clamp it to `[lower[i], upper[i]]`, assert that the
clamp moved it by strictly less than `1e-3` (`assert abs(pos - q[i]) < 1e-3`,
raising an error naming joint `i` otherwise), and store the clamped value. -/
def clampCheck (lower upper : List ℚ) : Nat → List ℚ → Except String (List ℚ)
  | _, [] => Except.ok []
  | i, x :: rest => do
    let lo ← pyGetQ lower i
    let hi ← pyGetQ upper i
    let pos := clampVal lo hi x
    if qAbs (qSub pos x) < mkRat 1 1000 then do
      let r ← clampCheck lower upper (i + 1) rest
      pure (pos :: r)
    else
      Except.error ("Joint " ++ toString i ++ " way out of bounds")

/-- The reference list of clamped values: every scalar of `q` clamped to the
limits at its (absolute) index. -/
def clampedList (lower upper : List ℚ) : Nat → List ℚ → List ℚ
  | _, [] => []
  | i, x :: rest => clampVal (lower.getD i 0) (upper.getD i 0) x :: clampedList lower upper (i + 1) rest

/-- `Robot.get_meas_qvtau` (robot.py lines 80-114): read the latest joint-state
sample `(position, velocity, effort)`, rearrange each vector from transport
order to model order through `_rearrange_ros_to_pin` (positions through the
configuration table, velocities and efforts through the velocity table), and,
unless `raw` is set, pass the rearranged configuration through the
bounds-validation loop. -/
def get_meas_qvtau (raw : Bool) (lower upper : List ℚ) (q_pin_to_ros v_pin_to_ros : List Nat)
    (position velocity effort : List ℚ) : Except String (List ℚ × List ℚ × List ℚ) := do
  let q ← rearrange_one q_pin_to_ros position
  let v ← rearrange_one v_pin_to_ros velocity
  let tau ← rearrange_one v_pin_to_ros effort
  if raw then
    pure (q, v, tau)
  else do
    let q2 ← clampCheck lower upper 0 q
    pure (q2, v, tau)

/-- Modelled from the spec: the repository's configuration matcher
`compare_configurations` lives in `tools/utils.py`, which is not among the
provided sources. Spec section 4.4: element-wise absolute-difference comparison,
true iff every pair of corresponding scalars differs by no more than the
tolerance, raising a shape error when the two vectors have different lengths;
the tolerance is a caller-exposed tunable, modelled here as an explicit
parameter. -/
def compare_configurations (q1 q2 : List ℚ) (eps : ℚ) : Except String Bool :=
  if q1.length = q2.length then
    Except.ok ((List.zip q1 q2).all (fun p => decide (qAbs (qSub p.1 p.2) ≤ eps)))
  else
    Except.error "ShapeError"

/-- Python slice `q[-7:]` (planner.py line 314): the last seven entries of the
waypoint, the trailing target-pose scalars (position 3 + quaternion 4). -/
def last7 (q : List ℚ) : List ℚ :=
  q.drop (q.length - 7)

/-- Boolean counterpart of the matcher on a waypoint's target-pose slice, used
to state properties of the scan; it agrees with `compare_configurations` on
shape-correct inputs. -/
def matchSlice (w pose : List ℚ) (eps : ℚ) : Bool :=
  (List.zip (last7 w) pose).all (fun p => decide (qAbs (qSub p.1 p.2) ≤ eps))

/-- The waypoint scan of `Planner.make_pick_and_place` (planner.py lines 311-318):
walk the waypoints in order carrying the running pair `(pick_index, place_index)`,
overwrite `pick_index` with `i` whenever the target-pose slice matches the pick
pose and overwrite `place_index` with `i + 1` whenever the slice does not match
the place pose; both start at `None`. -/
def splitScan (pose_pick pose_place : List ℚ) (eps : ℚ) :
    Nat → Option Nat → Option Nat → List (List ℚ) → Except String (Option Nat × Option Nat)
  | _, pick_index, place_index, [] => Except.ok (pick_index, place_index)
  | i, pick_index, place_index, q :: rest => do
    let target_pos := last7 q
    let mp ← compare_configurations target_pos pose_pick eps
    let ml ← compare_configurations target_pos pose_place eps
    splitScan pose_pick pose_place eps (i + 1)
      (if mp then some i else pick_index)
      (if ml then place_index else some (i + 1)) rest

/-- The three waypoint ranges cut out by `make_pick_and_place` (the slice
expressions of planner.py lines 321-323): `wps[:pick_index+1]`,
`wps[pick_index:place_index+1]` and `wps[place_index:]`. This function models
only the range computation; its error cases merely record that a scan boundary
is still `None` (whose slice bound `index + 1` is a Python `TypeError`). Which
error the program actually raises first when path creation is interleaved with
the slice bounds is modelled by the source-order `splitAndCreate` below. -/
def segmentRanges (wps : List (List ℚ)) (pose_pick pose_place : List ℚ) (eps : ℚ) :
    Except String (List (List ℚ) × List (List ℚ) × List (List ℚ)) := do
  let scan ← splitScan pose_pick pose_place eps 0 none none wps
  let pIdx ← match scan.1 with
    | some p => Except.ok p
    | none => Except.error "TypeError"
  let lIdx ← match scan.2 with
    | some l => Except.ok l
    | none => Except.error "TypeError"
  pure (wps.take (pIdx + 1), (wps.drop pIdx).take (lIdx + 1 - pIdx), wps.drop lIdx)

/-- `Planner._create_path` (planner.py lines 384-388): build a path from a direct
segment between `waypoints[0]` and `waypoints[1]` and append one direct segment
per remaining waypoint. The external `directPath` / `appendDirectPath` calls
always yield a path here (spec section 4.5: concatenate straight-line
connections), so the only failure is the `IndexError` of the two leading
subscripts on a list with fewer than two waypoints; the built path is
represented by its waypoint list. -/
def create_path (waypoints : List (List ℚ)) : Except String (List (List ℚ)) :=
  match waypoints with
  | _ :: _ :: _ => Except.ok waypoints
  | _ => Except.error "IndexError"

/-- Lines 311-323 of `make_pick_and_place` run in source order: scan the
waypoints, then build the pick path from `wps[:pick_index+1]`, the place path
from `wps[pick_index:place_index+1]` and the home path from `wps[place_index:]`,
evaluating each slice bound (a `TypeError` on a `None` index) just before the
corresponding `_create_path` call (an `IndexError` on a short slice). -/
def splitAndCreate (wps : List (List ℚ)) (pose_pick pose_place : List ℚ) (eps : ℚ) :
    Except String (List (List ℚ) × List (List ℚ) × List (List ℚ)) := do
  let scan ← splitScan pose_pick pose_place eps 0 none none wps
  let pIdx ← match scan.1 with
    | some p => Except.ok p
    | none => Except.error "TypeError"
  let pick_path ← create_path (wps.take (pIdx + 1))
  let lIdx ← match scan.2 with
    | some l => Except.ok l
    | none => Except.error "TypeError"
  let place_path ← create_path ((wps.drop pIdx).take (lIdx + 1 - pIdx))
  let home_path ← create_path (wps.drop lIdx)
  pure (pick_path, place_path, home_path)

/-- The external planning collaborators consumed by the goal-candidate loop of
`Planner.make_gripper_approach` (planner.py lines 159-171), determinised per
attempt: `shoot` is `hpp_robot.shootRandomConfig()` at a given attempt number,
`genPre` is `cg.generateTargetConfig('... f_01', q_init, q)`, `genGrasp` is
`cg.generateTargetConfig('... f_12', q_pre, q_pre)` and `direct` is
`ps.directPath(q_pre, q_grasp, True)`, each returning its success flag and
payload. -/
structure GoalOracle where
  shoot : Nat → List ℚ
  genPre : List ℚ → List ℚ → Bool × List ℚ
  genGrasp : List ℚ → List ℚ → Bool × List ℚ
  direct : List ℚ → List ℚ → Bool × Nat

/-- The goal-candidate loop of `make_gripper_approach` (planner.py lines 160-169):
`for _ in range(100)`, draw a random configuration, project it onto the pre-grasp
edge anchored at `q_init`, project the result onto the grasp edge anchored at
itself, and, when both projections report success and the direct connection
between the two results is valid, append the pair to the pool (the connection
path is erased right after the check). The loop carries the pair
(number of draws performed, accepted pool). -/
def sampleLoop (o : GoalOracle) (q_init : List ℚ) :
    List Nat → Nat × List (List ℚ × List ℚ) → Nat × List (List ℚ × List ℚ)
  | [], acc => acc
  | i :: rest, (draws, q_goals) =>
    let q := o.shoot i
    let pre := o.genPre q_init q
    let grasp := o.genGrasp pre.2 pre.2
    let q_goals2 :=
      if pre.1 && grasp.1 then
        if (o.direct pre.2 grasp.2).1 then q_goals ++ [(pre.2, grasp.2)] else q_goals
      else q_goals
    sampleLoop o q_init rest (draws + 1, q_goals2)

/-- The full sampling pass: 100 attempts, starting from an empty pool. -/
def sampleTrace (o : GoalOracle) (q_init : List ℚ) : Nat × List (List ℚ × List ℚ) :=
  sampleLoop o q_init (List.range 100) (0, [])

/-- The accepted pool after the sampling pass. -/
def sampleGoals (o : GoalOracle) (q_init : List ℚ) : List (List ℚ × List ℚ) :=
  (sampleTrace o q_init).2

/-- The number of random draws performed by the sampling pass. -/
def sampleDraws (o : GoalOracle) (q_init : List ℚ) : Nat :=
  (sampleTrace o q_init).1

/-- The outcome of one attempt in isolation: the pair accepted by attempt `i`,
if attempt `i` passes all three checks. -/
def attemptAccept (o : GoalOracle) (q_init : List ℚ) (i : Nat) : Option (List ℚ × List ℚ) :=
  let q := o.shoot i
  let pre := o.genPre q_init q
  let grasp := o.genGrasp pre.2 pre.2
  if pre.1 && grasp.1 then
    if (o.direct pre.2 grasp.2).1 then some (pre.2, grasp.2) else none
  else none

/-- Lines 160-171 of `make_gripper_approach`: run the sampling pass, then
`assert len(q_goals) > 0, "No goal configuration found"` before the pool is
used any further. -/
def gripperApproachGoals (o : GoalOracle) (q_init : List ℚ) :
    Except String (List (List ℚ × List ℚ)) :=
  let q_goals := sampleGoals o q_init
  if q_goals.length > 0 then Except.ok q_goals
  else Except.error "No goal configuration found"

/-- Oracle realising spec Scenario 5: both projections always succeed (echoing
the candidate), the direct-connection check always fails. -/
def scenario5Oracle : GoalOracle :=
  { shoot := fun i => [mkRat i 1],
    genPre := fun _ q => (true, q),
    genGrasp := fun q _ => (true, q),
    direct := fun _ _ => (false, 0) }

/-- Oracle on which every attempt passes all three checks. -/
def alwaysOkOracle : GoalOracle :=
  { shoot := fun i => [mkRat i 1],
    genPre := fun _ q => (true, q),
    genGrasp := fun q _ => (true, q),
    direct := fun _ _ => (true, 0) }

/-- A constant waypoint: seven copies of one scalar, standing for a full
configuration that consists of its trailing target-pose slice. -/
def wp7 (x : ℚ) : List ℚ :=
  List.replicate 7 x

/-- The five-waypoint sequence of spec Scenario 3: waypoints 0 and 1 sit at the
pick pose, waypoints 2 and 3 are in transit, waypoint 4 sits at the place pose. -/
def scenarioWps : List (List ℚ) :=
  [wp7 1, wp7 1, wp7 0, wp7 0, wp7 2]

/-- The pick pose of the scenario, as the trailing seven target scalars. -/
def scenarioPick : List ℚ :=
  wp7 1

/-- The place pose of the scenario, as the trailing seven target scalars. -/
def scenarioPlace : List ℚ :=
  wp7 2

/-- Whether the waypoint at position `i` of `wps` has its target-pose slice
within `eps` of `pose`; positions past the end do not match. -/
def matchAt (wps : List (List ℚ)) (pose : List ℚ) (eps : ℚ) (i : Nat) : Bool :=
  match wps.get? i with
  | some w => matchSlice w pose eps
  | none => false

/-- The position of the last entry of the list satisfying `f`, if any. -/
def lastIdxWhere (f : List ℚ → Bool) : List (List ℚ) → Option Nat
  | [] => none
  | w :: rest =>
    match lastIdxWhere f rest with
    | some k => some (k + 1)
    | none => if f w then some 0 else none

/-- The inclusive contiguous index range `[a, b]` of a list, as a sub-list. -/
def sliceIncl (l : List (List ℚ)) (a b : Nat) : List (List ℚ) :=
  (l.drop a).take (b + 1 - a)

/-- Sanity check of the lookup builder on a uniform one-scalar-per-joint robot
(the deployed two-arm configuration): the placeholder offset cancels and the
tables are the correct bijections. -/
theorem create_dof_lookup_uniform_ok :
    create_dof_lookup (buildModelFromLayout [("a", 1, 1), ("b", 1, 1), ("c", 1, 1)])
      ["b", "c", "a"] =
    Except.ok ([2, 0, 1], [1, 2, 0], [2, 0, 1], [1, 2, 0]) := rfl

/-- C1: the four tables returned by `create_dof_lookup` are claimed to be true
bijections on `[0, N)` for layouts with arbitrary per-joint scalar counts. On a
layout with one joint of 4 configuration and 3 velocity scalars the code returns
configuration tables equal to `[0]`: the placeholder entry of `model.joints`
shifts every block lookup by one, so the joint fetches the placeholder's
one-index block, internal index `1 < N = 4` has no preimage, and the result is
not a bijection on `[0, 4)`. -/
theorem c1_tables_not_bijective :
    create_dof_lookup (buildModelFromLayout [("shoulder", 4, 3)]) ["shoulder"] =
      Except.ok ([0], [0], [0], [0]) ∧
    totalConfigScalars [("shoulder", 4, 3)] = 4 ∧
    (1 : Nat) ∉ ([0] : List Nat) :=
  ⟨rfl, rfl, by decide⟩

/-- C2: on layouts internal `[A(1), B(2)]`, external `[B(2), A(1)]` the claim
expects the external-to-internal configuration table `[1, 2, 0]` and the
reordering of `[10, 20, 30]` to give `[20, 30, 10]`. The code instead builds
the two-entry table `[1, 0]` (B fetches A's block, A fetches the placeholder
block), and reordering `[10, 20, 30]` through that table stops with an
`IndexError`. -/
theorem c2_scenario1_wrong_table :
    create_dof_lookup (buildModelFromLayout [("A", 1, 1), ("B", 2, 2)]) ["B", "A"] =
      Except.ok ([1, 0], [1, 0], [1, 0], [1, 0]) ∧
    rearrange_one [1, 0] [10, 20, 30] = Except.error "IndexError" :=
  ⟨rfl, rfl⟩

/-- C4 counterexample: on the five-waypoint scenario the code does not return
the claimed split pick `[0,1]` / place `[1,3]` / home `[3,4]`: the place range
it computes holds the four waypoints 1-4 and the home range only waypoint 4. -/
theorem c4_counterexample :
    segmentRanges scenarioWps scenarioPick scenarioPlace (mkRat 1 1000) =
      Except.ok ([wp7 1, wp7 1], [wp7 1, wp7 0, wp7 0, wp7 2], [wp7 2]) ∧
    ([wp7 1, wp7 0, wp7 0, wp7 2] : List (List ℚ)) ≠ [wp7 1, wp7 0, wp7 0] ∧
    ([wp7 2] : List (List ℚ)) ≠ [wp7 0, wp7 2] :=
  ⟨by decide, by decide, by decide⟩

/-- C4 amended: on the scenario the scan yields pick boundary 1 and place
boundary 4 (one past the last non-matching index 3), so the ranges are pick
`[0,1]`, place `[1,4]` and home `[4,4]`; materialising the single-waypoint home
range then fails with an `IndexError`. -/
theorem c4_scenario_actual :
    splitScan scenarioPick scenarioPlace (mkRat 1 1000) 0 none none scenarioWps =
      Except.ok (some 1, some 4) ∧
    splitAndCreate scenarioWps scenarioPick scenarioPlace (mkRat 1 1000) =
      Except.error "IndexError" :=
  ⟨by decide, by decide⟩

/-- C5: when every waypoint matches the place pose (here the pick and place
poses coincide and both waypoints sit on them), `place_index` is never assigned
and stays `None`; the pick path over both waypoints is built fine at line 321,
and then computing the place slice bound `None + 1` at line 322 raises a
`TypeError`: segmentation fails instead of degenerating to an empty home
range. -/
theorem c5_all_match_place_fails :
    splitScan scenarioPlace scenarioPlace (mkRat 1 1000) 0 none none [wp7 2, wp7 2] =
      Except.ok (some 1, none) ∧
    splitAndCreate [wp7 2, wp7 2] scenarioPlace scenarioPlace (mkRat 1 1000) =
      Except.error "TypeError" :=
  ⟨by decide, by decide⟩

set_option maxRecDepth 40000 in
/-- C6 counterexample: with projections that always succeed and a
direct-connection check that always fails (spec Scenario 5), the pool is empty
after the 100 draws and `make_gripper_approach` raises the assertion
`No goal configuration found` instead of returning the empty pool. -/
theorem c6_counterexample :
    sampleGoals scenario5Oracle [] = [] ∧
    gripperApproachGoals scenario5Oracle [] =
      Except.error "No goal configuration found" :=
  ⟨by decide, by decide⟩

/-- C6 amended: whenever the sampling pass ends with an empty pool,
`make_gripper_approach` raises the `No goal configuration found` assertion
rather than yielding the empty pool as a non-fatal result. -/
theorem c6_empty_pool_asserts (o : GoalOracle) (q_init : List ℚ)
    (h : sampleGoals o q_init = []) :
    gripperApproachGoals o q_init = Except.error "No goal configuration found" := by
  simp [gripperApproachGoals, h]

/-- C6 witness: the amended statement applied to the Scenario-5 oracle. -/
theorem c6_witness :
    gripperApproachGoals scenario5Oracle [] =
      Except.error "No goal configuration found" :=
  c6_empty_pool_asserts scenario5Oracle [] rfl

set_option maxRecDepth 40000 in
/-- C7 counterexample: on an oracle that accepts every attempt, the sampler
performs all 100 draws and accumulates 100 pairs: it does not stop drawing once
any acceptance target below 100 is reached. -/
theorem c7_counterexample :
    sampleDraws alwaysOkOracle [] = 100 ∧
    (sampleGoals alwaysOkOracle []).length = 100 :=
  ⟨by decide, by decide⟩

/-- The computable subtraction agrees with the library subtraction on `ℚ`. -/
theorem qSub_eq_sub (a b : ℚ) : qSub a b = a - b := by
  rw [Rat.sub_def, qSub]
  rw [Rat.normalize_eq_mkRat]

/-- The computable absolute value agrees with the library absolute value. -/
theorem qAbs_eq_abs (a : ℚ) : qAbs a = |a| := by
  rw [qAbs]
  split_ifs with h
  · exact (abs_of_nonneg h).symm
  · have hn : a.neg = -a := rfl
    rw [hn, abs_of_neg (not_le.mp h)]

/-- The computable maximum agrees with the library maximum. -/
theorem qMax_eq_max (a b : ℚ) : qMax a b = max a b := by
  rw [qMax]
  rcases le_total a b with h | h
  · rw [if_pos h, max_eq_right h]
  · rcases eq_or_lt_of_le h with rfl | h2
    · simp
    · rw [if_neg (not_le.mpr h2), max_eq_left h]

/-- The computable minimum agrees with the library minimum. -/
theorem qMin_eq_min (a b : ℚ) : qMin a b = min a b := by
  rw [qMin]
  rcases le_total a b with h | h
  · rw [if_pos h, min_eq_left h]
  · rcases eq_or_lt_of_le h with rfl | h2
    · simp
    · rw [if_neg (not_le.mpr h2), min_eq_right h]

/-- Bind of a success value in the exception monad. -/
theorem exc_bind_ok {α β : Type} (a : α) (f : α → Except String β) :
    (Except.ok a >>= f) = f a := rfl

/-- Bind of an error in the exception monad. -/
theorem exc_bind_err {α β : Type} (e : String) (f : α → Except String β) :
    ((Except.error e : Except String α) >>= f) = Except.error e := rfl

/-- On shape-correct inputs the matcher succeeds and agrees with the Boolean
slice matcher. -/
theorem compare_last7 {w pose : List ℚ} (eps : ℚ)
    (h : (last7 w).length = pose.length) :
    compare_configurations (last7 w) pose eps = Except.ok (matchSlice w pose eps) := by
  rw [compare_configurations, if_pos h, matchSlice]

/-- A list none of whose entries satisfies `f` has no last satisfying entry. -/
theorem lastIdxWhere_eq_none (f : List ℚ → Bool) :
    ∀ l : List (List ℚ), (∀ w ∈ l, f w = false) → lastIdxWhere f l = none := by
  intro l
  induction l with
  | nil => intro _; rfl
  | cons w rest ih =>
    intro h
    rw [lastIdxWhere, ih (fun x hx => h x (List.mem_cons_of_mem w hx))]
    simp [h w (List.mem_cons_self w rest)]

/-- If position `p` satisfies `f` and no later position does, then `p` is the
last satisfying position. -/
theorem lastIdxWhere_eq_some (f : List ℚ → Bool) :
    ∀ (l : List (List ℚ)) (p : Nat) (w : List ℚ),
      l.get? p = some w → f w = true →
      (∀ j x, p < j → l.get? j = some x → f x = false) →
      lastIdxWhere f l = some p := by
  intro l
  induction l with
  | nil => intro p w h _ _; simp at h
  | cons a rest ih =>
    intro p w hget hfw hafter
    cases p with
    | zero =>
      have ha : f a = true := by
        have haw : a = w := by simpa using hget
        rw [haw]; exact hfw
      have hrest : lastIdxWhere f rest = none := by
        apply lastIdxWhere_eq_none
        intro x hx
        obtain ⟨j, hj⟩ := List.get?_of_mem hx
        exact hafter (j + 1) x (Nat.succ_pos j) (by simpa using hj)
      rw [lastIdxWhere, hrest]
      simp [ha]
    | succ p2 =>
      have hr : lastIdxWhere f rest = some p2 :=
        ih p2 w (by simpa using hget) hfw
          (fun j x hj hx => hafter (j + 1) x (Nat.succ_lt_succ hj) (by simpa using hx))
      rw [lastIdxWhere, hr]

/-- The waypoint scan computes, in its first slot, the last pick-matching
position and, in its second, one past the last place-non-matching position,
each falling back to the accumulator when no position qualifies. -/
theorem splitScan_eq_ok (pose_pick pose_place : List ℚ) (eps : ℚ) :
    ∀ (wps : List (List ℚ)) (i : Nat) (accP accL : Option Nat),
      (∀ w ∈ wps, (last7 w).length = pose_pick.length) →
      (∀ w ∈ wps, (last7 w).length = pose_place.length) →
      splitScan pose_pick pose_place eps i accP accL wps =
        Except.ok
          ((match lastIdxWhere (fun w => matchSlice w pose_pick eps) wps with
            | some k => some (i + k)
            | none => accP),
           (match lastIdxWhere (fun w => !matchSlice w pose_place eps) wps with
            | some k => some (i + k + 1)
            | none => accL)) := by
  intro wps
  induction wps with
  | nil => intro i accP accL _ _; rfl
  | cons w rest ih =>
    intro i accP accL hp hl
    have hstep : splitScan pose_pick pose_place eps i accP accL (w :: rest) =
        splitScan pose_pick pose_place eps (i + 1)
          (if matchSlice w pose_pick eps then some i else accP)
          (if matchSlice w pose_place eps then accL else some (i + 1)) rest := by
      simp only [splitScan, compare_last7 eps (hp w (List.mem_cons_self w rest)),
        compare_last7 eps (hl w (List.mem_cons_self w rest)), exc_bind_ok]
    rw [hstep, ih (i + 1) _ _ (fun x hx => hp x (List.mem_cons_of_mem w hx))
      (fun x hx => hl x (List.mem_cons_of_mem w hx))]
    rcases h1 : lastIdxWhere (fun x => matchSlice x pose_pick eps) rest with _ | k1 <;>
      rcases h2 : lastIdxWhere (fun x => !matchSlice x pose_place eps) rest with _ | k2 <;>
      cases hf : matchSlice w pose_pick eps <;>
      cases hg : matchSlice w pose_place eps <;>
      simp [lastIdxWhere, h1, h2, hf, hg] <;> omega

/-- C3: for every waypoint sequence (with shape-correct target slices) in which
`p` is the last index whose target-pose slice matches the pick pose and `q` is
the last index whose slice does not match the place pose, the segmenter sets
the pick boundary to `p` and the place boundary to `q + 1`, and cuts the
sequence into `pickRange = [0, p]`, `placeRange = [p, q + 1]` and
`homeRange = [q + 1, end]`. -/
theorem c3_segmenter_rule (wps : List (List ℚ)) (pose_pick pose_place : List ℚ)
    (eps : ℚ) (p q : Nat)
    (hshape_pick : ∀ w ∈ wps, (last7 w).length = pose_pick.length)
    (hshape_place : ∀ w ∈ wps, (last7 w).length = pose_place.length)
    (hp : matchAt wps pose_pick eps p = true)
    (hp_last : ∀ j, j < wps.length → p < j → matchAt wps pose_pick eps j = false)
    (hq : q < wps.length)
    (hq_nm : matchAt wps pose_place eps q = false)
    (hq_last : ∀ j, j < wps.length → q < j → matchAt wps pose_place eps j = true) :
    splitScan pose_pick pose_place eps 0 none none wps = Except.ok (some p, some (q + 1)) ∧
    segmentRanges wps pose_pick pose_place eps =
      Except.ok (sliceIncl wps 0 p, sliceIncl wps p (q + 1), wps.drop (q + 1)) := by
  have hscan := splitScan_eq_ok pose_pick pose_place eps wps 0 none none
    hshape_pick hshape_place
  obtain ⟨wP, hgetP⟩ : ∃ w, wps.get? p = some w := by
    rcases hgp : wps.get? p with _ | w
    · rw [matchAt, hgp] at hp
      cases hp
    · exact ⟨w, rfl⟩
  have hfP : matchSlice wP pose_pick eps = true := by
    simp only [matchAt, hgetP] at hp
    exact hp
  have hlastP : lastIdxWhere (fun w => matchSlice w pose_pick eps) wps = some p := by
    apply lastIdxWhere_eq_some _ wps p wP hgetP hfP
    intro j x hj hx
    have hjlen : j < wps.length := (List.get?_eq_some.mp hx).1
    have hfalse := hp_last j hjlen hj
    simp only [matchAt, hx] at hfalse
    exact hfalse
  obtain ⟨wQ, hgetQ⟩ : ∃ w, wps.get? q = some w := by
    rcases hgq : wps.get? q with _ | w
    · rw [List.get?_eq_none] at hgq
      omega
    · exact ⟨w, rfl⟩
  have hfQ : (!matchSlice wQ pose_place eps) = true := by
    simp only [matchAt, hgetQ] at hq_nm
    simp [hq_nm]
  have hlastQ : lastIdxWhere (fun w => !matchSlice w pose_place eps) wps = some q := by
    apply lastIdxWhere_eq_some _ wps q wQ hgetQ hfQ
    intro j x hj hx
    have hjlen : j < wps.length := (List.get?_eq_some.mp hx).1
    have htrue := hq_last j hjlen hj
    simp only [matchAt, hx] at htrue
    simp [htrue]
  rw [hlastP, hlastQ] at hscan
  simp only [Nat.zero_add] at hscan
  refine ⟨hscan, ?_⟩
  rw [segmentRanges, hscan]
  rfl

/-- C3 witness: the segmenter rule applied to the concrete five-waypoint
scenario, whose last pick match is at index 1 and last place non-match at
index 3. -/
theorem c3_witness :
    matchAt scenarioWps scenarioPick (mkRat 1 1000) 1 = true ∧
    segmentRanges scenarioWps scenarioPick scenarioPlace (mkRat 1 1000) =
      Except.ok (sliceIncl scenarioWps 0 1, sliceIncl scenarioWps 1 4, scenarioWps.drop 4) :=
  ⟨by decide,
   (c3_segmenter_rule scenarioWps scenarioPick scenarioPlace (mkRat 1 1000) 1 3
      (by decide) (by decide) (by decide) (by decide) (by decide) (by decide)
      (by decide)).2⟩

/-- The sampling loop walks its whole attempt list, counting one draw per
attempt and appending exactly the accepted pairs, in attempt order. -/
theorem sampleLoop_spec (o : GoalOracle) (q_init : List ℚ) :
    ∀ (l : List Nat) (d : Nat) (pool : List (List ℚ × List ℚ)),
      sampleLoop o q_init l (d, pool) =
        (d + l.length, pool ++ l.filterMap (attemptAccept o q_init)) := by
  intro l
  induction l with
  | nil => intro d pool; simp [sampleLoop]
  | cons i rest ih =>
    intro d pool
    simp only [sampleLoop]
    rw [ih, List.filterMap_cons]
    simp only [attemptAccept]
    cases hb : ((o.genPre q_init (o.shoot i)).1 &&
        (o.genGrasp (o.genPre q_init (o.shoot i)).2 (o.genPre q_init (o.shoot i)).2).1) with
    | false =>
      simp only [hb, if_false, Bool.false_eq_true]
      simp [List.length_cons]
      omega
    | true =>
      cases hd : (o.direct (o.genPre q_init (o.shoot i)).2
          (o.genGrasp (o.genPre q_init (o.shoot i)).2 (o.genPre q_init (o.shoot i)).2).2).1 with
      | false =>
        simp only [hb, hd]
        simp [List.length_cons]
        omega
      | true =>
        simp only [hb, hd]
        simp [List.length_cons, List.append_assoc]
        omega

/-- C7 amended: in every run the sampler performs exactly 100 random draws -
it has no acceptance target and never stops early - and the final pool is
precisely the list of pairs accepted by the individual attempts, in attempt
order. -/
theorem c7_no_early_stop (o : GoalOracle) (q_init : List ℚ) :
    sampleDraws o q_init = 100 ∧
    sampleGoals o q_init = (List.range 100).filterMap (attemptAccept o q_init) := by
  constructor
  · rw [sampleDraws, sampleTrace, sampleLoop_spec]
    simp
  · rw [sampleGoals, sampleTrace, sampleLoop_spec]
    simp

/-- Reading a scalar inside the list bounds succeeds and returns the default-0
lookup value. -/
theorem pyGetQ_ok (l : List ℚ) (n : Nat) (h : n < l.length) :
    pyGetQ l n = Except.ok (l.getD n 0) := by
  rcases hg : l.get? n with _ | y
  · rw [List.get?_eq_none] at hg
    omega
  · rw [pyGetQ, hg]
    rw [List.get?_eq_getElem?] at hg
    simp [List.getD_eq_getElem?_getD, hg]

/-- The bounds-validation loop succeeds when every scalar within the processed
suffix is moved by strictly less than the tolerance, and produces the clamped
list. -/
theorem clampCheck_ok (lower upper : List ℚ) :
    ∀ (q : List ℚ) (n : Nat),
      n + q.length ≤ lower.length → n + q.length ≤ upper.length →
      (∀ k, k < q.length →
        qAbs (qSub (clampVal (lower.getD (n + k) 0) (upper.getD (n + k) 0) (q.getD k 0))
          (q.getD k 0)) < mkRat 1 1000) →
      clampCheck lower upper n q = Except.ok (clampedList lower upper n q) := by
  intro q
  induction q with
  | nil => intro n _ _ _; rfl
  | cons x rest ih =>
    intro n hl hu hgood
    have hxn : n < lower.length := by
      simp only [List.length_cons] at hl
      omega
    have hxu : n < upper.length := by
      simp only [List.length_cons] at hu
      omega
    have h0 := hgood 0 (by simp)
    simp only [Nat.add_zero, List.getD_cons_zero] at h0
    simp only [clampCheck, pyGetQ_ok lower n hxn, pyGetQ_ok upper n hxu, exc_bind_ok]
    rw [if_pos h0]
    rw [ih (n + 1) (by simp only [List.length_cons] at hl; omega)
      (by simp only [List.length_cons] at hu; omega)
      (fun k hk => by
        have := hgood (k + 1) (by simp only [List.length_cons]; omega)
        simp only [List.getD_cons_succ] at this
        have harith : n + (k + 1) = n + 1 + k := by omega
        rw [harith] at this
        exact this)]
    rfl

/-- The bounds-validation loop stops with the error naming the first scalar
whose clamp moves it by at least the tolerance. -/
theorem clampCheck_err (lower upper : List ℚ) :
    ∀ (q : List ℚ) (n i : Nat),
      i < q.length → n + i < lower.length → n + i < upper.length →
      ¬ (qAbs (qSub (clampVal (lower.getD (n + i) 0) (upper.getD (n + i) 0) (q.getD i 0))
          (q.getD i 0)) < mkRat 1 1000) →
      (∀ j, j < i →
        qAbs (qSub (clampVal (lower.getD (n + j) 0) (upper.getD (n + j) 0) (q.getD j 0))
          (q.getD j 0)) < mkRat 1 1000) →
      clampCheck lower upper n q =
        Except.error ("Joint " ++ toString (n + i) ++ " way out of bounds") := by
  intro q
  induction q with
  | nil => intro n i h; simp at h
  | cons x rest ih =>
    intro n i hi hl hu hbad hbefore
    have hxn : n < lower.length := by omega
    have hxu : n < upper.length := by omega
    simp only [clampCheck, pyGetQ_ok lower n hxn, pyGetQ_ok upper n hxu, exc_bind_ok]
    cases i with
    | zero =>
      simp only [Nat.add_zero, List.getD_cons_zero] at hbad
      rw [if_neg hbad]
      rw [Nat.add_zero]
    | succ i2 =>
      have h0 := hbefore 0 (Nat.succ_pos i2)
      simp only [Nat.add_zero, List.getD_cons_zero] at h0
      rw [if_pos h0]
      have harith : n + (i2 + 1) = n + 1 + i2 := by omega
      rw [harith]
      rw [ih (n + 1) i2 (by simp only [List.length_cons] at hi; omega)
        (by omega) (by omega)
        (by
          simp only [List.getD_cons_succ] at hbad
          rw [harith] at hbad
          exact hbad)
        (fun j hj => by
          have := hbefore (j + 1) (by omega)
          simp only [List.getD_cons_succ] at this
          have ha2 : n + (j + 1) = n + 1 + j := by omega
          rw [ha2] at this
          exact this)]
      rfl

/-- C8 amended: with `raw` unset and a well-formed reading, `get_meas_qvtau`
clamps every scalar into its joint limit interval and raises the out-of-bounds
error naming the first offending joint index exactly when some clamp moves a
scalar by at least (not strictly more than) the `1e-3` tolerance; the clamp of
each scalar indeed lies inside `[lower, upper]`. -/
theorem c8_bounds_validator (lower upper : List ℚ) (q_pin_to_ros v_pin_to_ros : List Nat)
    (position velocity effort q v tau : List ℚ)
    (hq : rearrange_one q_pin_to_ros position = Except.ok q)
    (hv : rearrange_one v_pin_to_ros velocity = Except.ok v)
    (ht : rearrange_one v_pin_to_ros effort = Except.ok tau)
    (hl : q.length ≤ lower.length) (hu : q.length ≤ upper.length) :
    ((∀ k, k < q.length →
        qAbs (qSub (clampVal (lower.getD k 0) (upper.getD k 0) (q.getD k 0)) (q.getD k 0)) <
          mkRat 1 1000) →
      get_meas_qvtau false lower upper q_pin_to_ros v_pin_to_ros position velocity effort =
        Except.ok (clampedList lower upper 0 q, v, tau)) ∧
    (∀ i, i < q.length →
      ¬ (qAbs (qSub (clampVal (lower.getD i 0) (upper.getD i 0) (q.getD i 0)) (q.getD i 0)) <
          mkRat 1 1000) →
      (∀ j, j < i →
        qAbs (qSub (clampVal (lower.getD j 0) (upper.getD j 0) (q.getD j 0)) (q.getD j 0)) <
          mkRat 1 1000) →
      get_meas_qvtau false lower upper q_pin_to_ros v_pin_to_ros position velocity effort =
        Except.error ("Joint " ++ toString i ++ " way out of bounds")) ∧
    (∀ lo hi x : ℚ, lo ≤ hi → lo ≤ clampVal lo hi x ∧ clampVal lo hi x ≤ hi) := by
  have hmeas : get_meas_qvtau false lower upper q_pin_to_ros v_pin_to_ros position velocity effort =
      (clampCheck lower upper 0 q >>= fun q2 => pure (q2, v, tau)) := by
    rw [get_meas_qvtau, hq, hv, ht]
    rfl
  refine ⟨?_, ?_, ?_⟩
  · intro hgood
    rw [hmeas, clampCheck_ok lower upper q 0 (by omega) (by omega)
      (fun k hk => by simpa using hgood k hk)]
    rfl
  · intro i hi hbad hbefore
    rw [hmeas, clampCheck_err lower upper q 0 i hi (by omega) (by omega)
      (by simpa using hbad) (fun j hj => by simpa using hbefore j hj)]
    simp
  · intro lo hi x hlohi
    rw [clampVal, qMin, qMax]
    constructor
    · split_ifs <;> linarith
    · split_ifs <;> linarith

/-- C8 counterexample: a reading of exactly `lower + tolerance` is moved by
exactly, not strictly more than, `1e-3`, yet the code raises the out-of-bounds
error: against bounds `[0, 1]`, the reading `1001/1000` fails. -/
theorem c8_counterexample :
    qAbs (qSub (clampVal 0 1 (mkRat 1001 1000)) (mkRat 1001 1000)) = mkRat 1 1000 ∧
    get_meas_qvtau false [0] [1] [0] [0] [mkRat 1001 1000] [0] [0] =
      Except.error "Joint 0 way out of bounds" :=
  ⟨by decide, by decide⟩

/-- C8 witness: the reading `1.0005` against bounds `[0, 1]` is silently
clamped to `1.0` via the amended theorem. -/
theorem c8_witness :
    rearrange_one [0] [mkRat 10005 10000] = Except.ok [mkRat 10005 10000] ∧
    get_meas_qvtau false [0] [1] [0] [0] [mkRat 10005 10000] [0] [0] =
      Except.ok ([1], [0], [0]) := by
  refine ⟨by decide, ?_⟩
  have h := (c8_bounds_validator [0] [1] [0] [0] [mkRat 10005 10000] [0] [0]
    [mkRat 10005 10000] [0] [0] (by decide) (by decide) (by decide) (by decide)
    (by decide)).1 (by decide)
  exact h.trans (by decide)

/-- C9: with `raw = True`, `get_meas_qvtau` returns the reordered position,
velocity and effort vectors completely unchanged: the clamp loop is skipped and
no out-of-bounds error can be raised, whatever the joint limits are. -/
theorem c9_raw_unchanged (lower upper : List ℚ) (q_pin_to_ros v_pin_to_ros : List Nat)
    (position velocity effort q v tau : List ℚ)
    (hq : rearrange_one q_pin_to_ros position = Except.ok q)
    (hv : rearrange_one v_pin_to_ros velocity = Except.ok v)
    (ht : rearrange_one v_pin_to_ros effort = Except.ok tau) :
    get_meas_qvtau true lower upper q_pin_to_ros v_pin_to_ros position velocity effort =
      Except.ok (q, v, tau) := by
  rw [get_meas_qvtau, hq, hv, ht]
  rfl

/-- C9 witness: a reading of `1000` against bounds `[0, 1]` - far outside the
limits - is returned unchanged when `raw` is set. -/
theorem c9_witness :
    rearrange_one [0] [1000] = Except.ok [1000] ∧
    get_meas_qvtau true [0] [1] [0] [0] [1000] [0] [0] = Except.ok ([1000], [0], [0]) :=
  ⟨by decide,
   c9_raw_unchanged [0] [1] [0] [0] [1000] [0] [0] [1000] [0] [0]
     (by decide) (by decide) (by decide)⟩

/-- When the scan produced both boundaries, the split-and-rebuild step reduces
to the three path creations in source order. -/
theorem splitAndCreate_eq (wps : List (List ℚ)) (pose_pick pose_place : List ℚ)
    (eps : ℚ) (p l : Nat)
    (hscan : splitScan pose_pick pose_place eps 0 none none wps =
      Except.ok (some p, some l)) :
    splitAndCreate wps pose_pick pose_place eps =
      (create_path (wps.take (p + 1)) >>= fun pick_path =>
        create_path ((wps.drop p).take (l + 1 - p)) >>= fun place_path =>
        create_path (wps.drop l) >>= fun home_path =>
        pure (pick_path, place_path, home_path)) := by
  rw [splitAndCreate, hscan]
  rfl

/-- When the scan produced both boundaries, the computed ranges are the three
slices of the waypoint list. -/
theorem segmentRanges_eq (wps : List (List ℚ)) (pose_pick pose_place : List ℚ)
    (eps : ℚ) (p l : Nat)
    (hscan : splitScan pose_pick pose_place eps 0 none none wps =
      Except.ok (some p, some l)) :
    segmentRanges wps pose_pick pose_place eps =
      Except.ok (wps.take (p + 1), (wps.drop p).take (l + 1 - p), wps.drop l) := by
  rw [segmentRanges, hscan]
  rfl

/-- C10: reconstructing a path segment needs at least two waypoints -
`_create_path` fails with an `IndexError` on any list of length 0 or 1 - and
consequently the split-and-rebuild step of `make_pick_and_place` fails whenever
one of the computed sub-ranges holds a single waypoint, in particular whenever
the scan puts the pick boundary at index 0. -/
theorem c10_single_waypoint_fails :
    (∀ wps : List (List ℚ), wps.length ≤ 1 → create_path wps = Except.error "IndexError") ∧
    (∀ (wps : List (List ℚ)) (pose_pick pose_place : List ℚ) (eps : ℚ)
        (r1 r2 r3 : List (List ℚ)),
      segmentRanges wps pose_pick pose_place eps = Except.ok (r1, r2, r3) →
      r1.length = 1 ∨ r2.length = 1 ∨ r3.length = 1 →
      splitAndCreate wps pose_pick pose_place eps = Except.error "IndexError") ∧
    (∀ (wps : List (List ℚ)) (pose_pick pose_place : List ℚ) (eps : ℚ) (l : Nat),
      splitScan pose_pick pose_place eps 0 none none wps = Except.ok (some 0, some l) →
      splitAndCreate wps pose_pick pose_place eps = Except.error "IndexError") := by
  have h1 : ∀ wps : List (List ℚ), wps.length ≤ 1 →
      create_path wps = Except.error "IndexError" := by
    intro wps h
    match wps with
    | [] => rfl
    | [a] => rfl
    | a :: b :: rest => simp at h
  have h2 : ∀ (wps : List (List ℚ)) (pose_pick pose_place : List ℚ) (eps : ℚ)
      (r1 r2 r3 : List (List ℚ)),
      segmentRanges wps pose_pick pose_place eps = Except.ok (r1, r2, r3) →
      r1.length = 1 ∨ r2.length = 1 ∨ r3.length = 1 →
      splitAndCreate wps pose_pick pose_place eps = Except.error "IndexError" := by
    intro wps pose_pick pose_place eps r1 r2 r3 hseg hone
    rcases hscan : splitScan pose_pick pose_place eps 0 none none wps with e | scan
    · rw [segmentRanges, hscan, exc_bind_err] at hseg
      cases hseg
    · rcases scan with ⟨pI, lI⟩
      rcases pI with _ | p
      · rw [segmentRanges, hscan, exc_bind_ok] at hseg
        cases hseg
      · rcases lI with _ | l
        · rw [segmentRanges, hscan, exc_bind_ok] at hseg
          cases hseg
        · rw [segmentRanges_eq wps pose_pick pose_place eps p l hscan] at hseg
          simp only [Except.ok.injEq, Prod.mk.injEq] at hseg
          obtain ⟨e1, e2, e3⟩ := hseg
          rw [splitAndCreate_eq wps pose_pick pose_place eps p l hscan]
          rcases ht1 : wps.take (p + 1) with _ | ⟨a1, t1⟩
          · rfl
          · rcases t1 with _ | ⟨b1, t1b⟩
            · rfl
            · rw [show create_path (a1 :: b1 :: t1b) =
                Except.ok (a1 :: b1 :: t1b) from rfl, exc_bind_ok]
              rcases hone with hh | hh | hh
              · rw [← e1, ht1] at hh
                simp at hh
              · have hr2 := h1 r2 (le_of_eq hh)
                rw [← e2] at hr2
                rw [hr2]
                rfl
              · rcases ht2 : (wps.drop p).take (l + 1 - p) with _ | ⟨a2, t2⟩
                · rfl
                · rcases t2 with _ | ⟨b2, t2b⟩
                  · rfl
                  · rw [show create_path (a2 :: b2 :: t2b) =
                      Except.ok (a2 :: b2 :: t2b) from rfl, exc_bind_ok]
                    have hr3 := h1 r3 (le_of_eq hh)
                    rw [← e3] at hr3
                    rw [hr3]
                    rfl
  refine ⟨h1, h2, ?_⟩
  intro wps pose_pick pose_place eps l hscan
  cases wps with
  | nil =>
    rw [show splitScan pose_pick pose_place eps 0 none none ([] : List (List ℚ)) =
      Except.ok (none, none) from rfl] at hscan
    cases hscan
  | cons w rest =>
    exact h2 (w :: rest) pose_pick pose_place eps _ _ _
      (segmentRanges_eq (w :: rest) pose_pick pose_place eps 0 l hscan)
      (Or.inl (by simp))

/-- C10 witness: the empty waypoint list has length at most one and path
creation on it fails with the `IndexError`. -/
theorem c10_witness :
    (([] : List (List ℚ)).length ≤ 1) ∧
    create_path ([] : List (List ℚ)) = Except.error "IndexError" :=
  ⟨by decide, c10_single_waypoint_fails.1 [] (by decide)⟩
